import Mathlib

/-!
A shallow embedding of the extraction, normalization, reconciliation and
assembly logic of `university_scraper.py`, together with theorems checking
the natural-language specification against it.

Modelling conventions:
* HTML pages are represented by the text content of exactly the elements the
  scraper reads (BeautifulSoup navigation is abstracted into record fields;
  a `none` field models an absent tag, `some s` models a tag whose extracted
  text is `s`).
* Python strings are Lean `String`; `str.lower`, `str.upper`, `str.capitalize`
  and the character classes of the regexes are modelled on ASCII via
  `Char.toLower`, `Char.toUpper`, `Char.isAlpha`, `Char.isDigit`.
* The HTTP transport is external to the core (spec section 6); a failed fetch
  is modelled as `none` input data.
* The Source A JSON-LD metadata extraction is abstracted: the three fields it
  produces (name, city, country) are inputs of `TargetData`, since no claim
  depends on its internals; every other extraction step is embedded from the
  source.
-/

/-- Python whitespace class `\s` restricted to ASCII. -/
def isWs (c : Char) : Bool :=
  c = ' ' || c = '\t' || c = '\n' || c = '\r' || c = '\x0B' || c = '\x0C'

/-- Splits a character list into its maximal whitespace-free runs.
`acc` holds the (reversed) run currently being read. -/
def tokensAux : List Char → List Char → List (List Char)
  | [], acc => if acc.isEmpty then [] else [acc.reverse]
  | c :: cs, acc =>
    if isWs c then
      if acc.isEmpty then tokensAux cs [] else acc.reverse :: tokensAux cs []
    else tokensAux cs (c :: acc)

def tokens (cs : List Char) : List (List Char) := tokensAux cs []

/-- Embeds `clean_text` (scraper line 91) on string input: collapse internal
whitespace runs to single spaces, trim the ends, and map an empty or
whitespace-only input to the sentinel `"N/A"`. -/
def clean_text (s : String) : String :=
  let ts := tokens s.toList
  if ts.isEmpty then "N/A" else String.mk (List.intercalate [' '] ts)

/-- Embeds `clean_text` at call sites whose argument may be Python `None`. -/
def clean_text_opt : Option String → String
  | none => "N/A"
  | some s => clean_text s

/-- Python `str.lower` on ASCII. -/
def lowerStr (s : String) : String := String.mk (s.toList.map Char.toLower)

/-- Python `str.capitalize` on ASCII: first character uppercased, the rest
lowercased. -/
def pyCapitalize (s : String) : String :=
  match s.toList with
  | [] => ""
  | c :: cs => String.mk (c.toUpper :: cs.map Char.toLower)

/-- Python `str.isupper` on ASCII: at least one cased character and every
cased character uppercase. -/
def pyIsUpper (s : String) : Bool :=
  s.toList.any Char.isAlpha && s.toList.all (fun c => !c.isAlpha || c.isUpper)

/-- Python `str.split()` with no separator: the whitespace-free runs. -/
def splitWs (s : String) : List String := (tokens s.toList).map String.mk

/-- The `small_words` set of `smart_title_case` (line 103). -/
def SMALL_WORDS : List String :=
  ["and", "or", "of", "the", "in", "on", "for", "to", "at", "by", "with"]

/-- The `COUNTRY_ALIASES` table (line 78). -/
def COUNTRY_ALIASES : List (String × String) :=
  [("Us", "United States"), ("U.S.", "United States"), ("Usa", "United States"),
   ("Uk", "United Kingdom"), ("England", "United Kingdom")]

/-- The per-word rule of `smart_title_case` (lines 105-111); `i` is the word
position in the split text. -/
def titleWord (i : Nat) (w : String) : String :=
  if pyIsUpper w = true ∧ w.length ≤ 5 then w
  else if 0 < i ∧ SMALL_WORDS.contains (lowerStr w) = true then lowerStr w
  else pyCapitalize w

/-- Embeds `smart_title_case` (line 98). -/
def smart_title_case (text : String) : String :=
  let t := clean_text text
  if t = "N/A" then t
  else
    let titled := String.intercalate " " ((splitWs t).enum.map (fun p => titleWord p.1 p.2))
    ((COUNTRY_ALIASES.find? (fun p => p.1 == titled)).map (fun p => p.2)).getD titled

/-! ### Python dict model (insertion order, lookup by key) -/

/-- Python `d[k] = v`: overwrite in place if the key exists, else append. -/
def dictSet (d : List (String × String)) (k v : String) : List (String × String) :=
  if d.any (fun p => p.1 == k) then d.map (fun p => if p.1 == k then (k, v) else p)
  else d ++ [(k, v)]

/-- Python `d.get(k)`. -/
def dictGet (d : List (String × String)) (k : String) : Option String :=
  (d.find? (fun p => p.1 == k)).map (fun p => p.2)

/-- Python `a or b` where `a` is `d.get(k)` (may be `None`) and `b` is a
further optional value: `None` and the empty string are falsy. -/
def pyOrOpt (a b : Option String) : Option String :=
  match a with
  | some s => if s = "" then b else some s
  | none => b

/-- Python `a or b` where the fallback `b` is a plain string. -/
def pyOrStr (a : Option String) (b : String) : String :=
  match a with
  | some s => if s = "" then b else s
  | none => b

/-! ### Badge and highlight extraction (lines 303-332) -/

/-- One `div.single-badge` element: the text of its `span.single-badge-title`
and of its `div.badge-description h3`, each `none` when the tag is absent. -/
structure BadgeEl where
  titleText : Option String
  valueText : Option String
deriving DecidableEq

/-- The value stored by `extract_badges` for one badge (lines 311-314): the
cleaned value, with the badge title stripped off the end when the value ends
with it case-insensitively.  `value.toList.take (...)` is the Python slice
`value[: -len(title)]` (the title is never empty there, since `clean_text`
never returns the empty string). -/
def badgeStoredValue (rawTitle rawValue : String) : String :=
  let title := clean_text rawTitle
  let value := clean_text rawValue
  if value ≠ "N/A" ∧ title ≠ "N/A" ∧
      ((lowerStr title).toList.isSuffixOf (lowerStr value).toList = true) then
    clean_text (String.mk (value.toList.take (value.toList.length - title.toList.length)))
  else value

/-- Embeds `extract_badges` (line 303): builds a lower-cased-title → value
map, overwriting on duplicate keys (plain dict assignment). -/
def extract_badges (els : List BadgeEl) : List (String × String) :=
  els.foldl
    (fun d el =>
      match el.titleText, el.valueText with
      | some t, some v => dictSet d (lowerStr (clean_text t)) (badgeStoredValue t v)
      | _, _ => d)
    []

/-- One `div.prog-view-highli` block: the text of its first `h3` and first
`p`, each `none` when the tag is absent. -/
structure HLEl where
  h3Text : Option String
  pText : Option String
deriving DecidableEq

/-- Embeds `extract_highlights` (line 321): first occurrence wins, a key is
only written when not already present and the value is not the sentinel. -/
def extract_highlights (els : List HLEl) : List (String × String) :=
  els.foldl
    (fun d el =>
      match el.h3Text, el.pText with
      | some k0, some v0 =>
        let key := lowerStr (clean_text k0)
        let value := clean_text v0
        if key ≠ "" ∧ (d.any (fun p => p.1 == key)) = false ∧ value ≠ "N/A" then
          d ++ [(key, value)]
        else d
      | _, _ => d)
    []

/-- Python `pat in s` for strings: `pat` occurs as a contiguous substring. -/
def strContains (s pat : String) : Bool :=
  (s.toList.tails).any (fun t => pat.toList.isPrefixOf t)

/-! ### Eligibility extraction (lines 335-358) -/

/-- One `div.univ-entry` block with its optional label and value sub-tags. -/
structure UnivEntry where
  labelText : Option String
  valueText : Option String
deriving DecidableEq

/-- One heading (`h2`/`h3`/`h4`) in document order, with the text of the next
`p`/`li`/`div` after it (`none` when there is none). -/
structure Heading where
  text : String
  nextBlockText : Option String
deriving DecidableEq

/-- The `univ-entry` loop of `extract_eligibility` (lines 336-345): collect
`label: value` pairs, stopping once five have been collected. -/
def collectPairs : List UnivEntry → List String → List String
  | [], acc => acc
  | e :: rest, acc =>
    let label := clean_text_opt e.labelText
    let value := clean_text_opt e.valueText
    let accNext := if label ≠ "N/A" ∧ value ≠ "N/A" then acc ++ [label ++ ": " ++ value] else acc
    if 5 ≤ accNext.length then accNext else collectPairs rest accNext

/-- The heading-scan fallback of `extract_eligibility` (lines 350-357). -/
def headingScan : List Heading → String
  | [] => "N/A"
  | h :: rest =>
    let ht := lowerStr (clean_text h.text)
    if (strContains ht "admission" || strContains ht "eligibility" ||
        strContains ht "entry requirement") then
      match h.nextBlockText with
      | some nb =>
        let snippet := clean_text nb
        if snippet ≠ "N/A" then String.mk (snippet.toList.take 220) else headingScan rest
      | none => headingScan rest
    else headingScan rest

/-- Embeds `extract_eligibility` (line 335): up to five structured pairs
joined with `"; "`, else the heading-scan fallback, else the sentinel. -/
def extract_eligibility (entries : List UnivEntry) (headings : List Heading) : String :=
  let pairs := collectPairs entries []
  if pairs.isEmpty then headingScan headings
  else String.intercalate "; " pairs

/-! ### URL helpers (lines 361-365) -/

/-- Characters after the first `"://"`, if any. -/
def afterSchemeSep : List Char → Option (List Char)
  | ':' :: '/' :: '/' :: rest => some rest
  | _ :: rest => afterSchemeSep rest
  | [] => none

/-- Splitting a character list at every occurrence of `sep` (Python
`str.split(sep)` for a one-character separator: empty segments are kept). -/
def splitOnChar (sep : Char) : List Char → List (List Char)
  | [] => [[]]
  | c :: rest =>
    let r := splitOnChar sep rest
    if c = sep then [] :: r
    else
      match r with
      | [] => [[c]]
      | t :: ts => (c :: t) :: ts

/-- A model of Python `urlparse(url).path` for the absolute `http(s)` URLs the
scraper builds: cut the fragment and query, drop `scheme://netloc`, keep from
the first slash; a URL without `"://"` is all path. -/
def urlPath (url : String) : String :=
  let noFrag := (splitOnChar '#' url.toList).headD []
  let noQuery := (splitOnChar '?' noFrag).headD []
  match afterSchemeSep noQuery with
  | some rest => String.mk (rest.dropWhile (fun c => c ≠ '/'))
  | none => String.mk noQuery

/-- Python `s.strip("/")`. -/
def stripSlashes (cs : List Char) : List Char :=
  ((cs.dropWhile (fun c => c = '/')).reverse.dropWhile (fun c => c = '/')).reverse

/-- Embeds `url_level_segment` (line 361): the third path segment,
lower-cased, or the empty string. -/
def url_level_segment (courseUrl : String) : String :=
  let parts := splitOnChar '/' (stripSlashes (urlPath courseUrl).toList)
  if 3 ≤ parts.length then lowerStr (String.mk (parts.getD 2 [])) else ""

/-- The `LEVEL_BY_SEGMENT` table (line 66). -/
def LEVEL_BY_SEGMENT : List (String × String) :=
  [("undergrad", "Bachelor"), ("bachelors", "Bachelor"), ("masters", "Master"),
   ("postgrad", "Master"), ("phd", "PhD"), ("mba", "MBA"), ("diploma", "Diploma"),
   ("cert", "Certificate"), ("foundation", "Foundation")]

/-- Python `LEVEL_BY_SEGMENT.get(seg, "N/A")`. -/
def levelFromSegment (seg : String) : String :=
  ((LEVEL_BY_SEGMENT.find? (fun p => p.1 == seg)).map (fun p => p.2)).getD "N/A"

/-- Embeds `normalize_level` (line 368): substring tests in priority order on
the lowered cleaned level text, then the URL-segment fallback table. -/
def normalize_level (rawLevel courseUrl : String) : String :=
  let value := lowerStr (clean_text rawLevel)
  if strContains value "undergraduate" || strContains value "bachelor" then "Bachelor"
  else if strContains value "postgraduate" || strContains value "master" then "Master"
  else if strContains value "phd" || strContains value "doctoral" then "PhD"
  else if strContains value "diploma" then "Diploma"
  else if strContains value "certificate" then "Certificate"
  else if strContains value "mba" then "MBA"
  else levelFromSegment (url_level_segment courseUrl)

/-! ### Discipline heuristic (lines 386-399) -/

/-- The alternatives of the leading-degree-phrase regex, in regex order. -/
def degreeAlts : List String :=
  ["Bachelor", "Master", "BA", "BSc", "MSc", "MA", "PhD", "Doctor of", "Diploma in"]

/-- Case-insensitively drop `pat` from the front of `cs`, if it is a prefix. -/
def dropPrefixCI (pat : String) (cs : List Char) : Option (List Char) :=
  if (pat.toList.map Char.toLower).isPrefixOf (cs.map Char.toLower) then
    some (cs.drop pat.toList.length)
  else none

/-- Python `str.strip()`. -/
def pyStrip (s : String) : String :=
  String.mk (((s.toList.dropWhile (fun c => isWs c)).reverse.dropWhile (fun c => isWs c)).reverse)

/-- The single leading application of the regex
`^(Bachelor|Master|BA|BSc|MSc|MA|PhD|Doctor of|Diploma in)\s*(of|in)?\s*`
(case-insensitive) as performed by `re.sub` in `guess_discipline`: the
alternation tries the alternatives left to right, the optional `(of|in)`
group likewise. -/
def stripDegreePrefix (s : String) : String :=
  let cs := s.toList
  match degreeAlts.findSome? (fun alt => dropPrefixCI alt cs) with
  | none => s
  | some rest =>
    let afterWs := rest.dropWhile (fun c => isWs c)
    let afterGroup :=
      match dropPrefixCI "of" afterWs with
      | some r => r
      | none => (dropPrefixCI "in" afterWs).getD afterWs
    String.mk (afterGroup.dropWhile (fun c => isWs c))

/-- Embeds `guess_discipline` (line 386): strip a leading degree phrase from
the course name; keep the remainder when non-empty and at most six words,
else derive from the trailing URL segment. -/
def guess_discipline (courseName courseUrl : String) : String :=
  let cn := clean_text courseName
  let fromSlug :=
    let lastSeg := (splitOnChar '/' ((courseUrl.toList.reverse.dropWhile (fun c => c = '/')).reverse)).getLast?.getD []
    let slug := String.mk ((clean_text (String.mk lastSeg)).toList.map (fun c => if c = '-' then ' ' else c))
    smart_title_case slug
  if cn ≠ "N/A" then
    let possible := pyStrip (stripDegreePrefix cn)
    if possible ≠ "" ∧ (splitWs possible).length ≤ 6 then smart_title_case possible
    else fromSlug
  else fromSlug

/-! ### Course page scraping (lines 402-432) -/

/-- The parts of one course page that `scrape_course` reads. -/
structure CoursePage where
  h1Text : Option String
  badges : List BadgeEl
  highlights : List HLEl
  univEntries : List UnivEntry
  headings : List Heading
deriving DecidableEq

/-- One extracted course record (the dict built at line 424). -/
structure CourseRec where
  university_id : String
  course_name : String
  level : String
  discipline : String
  duration : String
  fees : String
  eligibility : String
deriving DecidableEq

/-- Embeds `scrape_course` (line 402) after a successful fetch. -/
def scrape_course (pg : CoursePage) (courseUrl universityId : String) : CourseRec :=
  let courseName := clean_text_opt pg.h1Text
  let badges := extract_badges pg.badges
  let highlights := extract_highlights pg.highlights
  let level := normalize_level ((dictGet highlights "study level").getD "N/A") courseUrl
  let discipline := clean_text (pyOrStr
    (pyOrOpt (dictGet highlights "main subject") (dictGet badges "main subject area"))
    (guess_discipline courseName courseUrl))
  let duration := clean_text_opt (pyOrOpt (dictGet badges "programme duration") (dictGet badges "duration"))
  let fees := clean_text_opt (pyOrOpt (dictGet badges "tuition fee/year") (dictGet badges "tuition fee"))
  let eligibility := clean_text (extract_eligibility pg.univEntries pg.headings)
  { university_id := universityId
    course_name := courseName
    level := level
    discipline := smart_title_case discipline
    duration := duration
    fees := fees
    eligibility := eligibility }

/-! ### Wikipedia infobox extraction (lines 154-227) -/

/-- One `tr` of the infobox: optional `th` text, optional `td` text, and the
`href` of the first anchor inside the `td` (if any). -/
structure WikiRow where
  thText : Option String
  tdText : Option String
  tdLinkHref : Option String
deriving DecidableEq

/-- One Wikipedia page as read by the scraper: the `#firstHeading` text and
the rows of `table.infobox` (`none` when the table is absent). -/
structure WikiPage where
  firstHeading : Option String
  infobox : Option (List WikiRow)
deriving DecidableEq

/-- Removal of bracketed citation markers: the regex `\[[^\]]*\]`, removing
every `[...]` span whose closing bracket exists; an unmatched `[` is kept.
`buf` is `some` of the (reversed) characters read since an as yet unclosed
`[`; when the input ends inside an unclosed span, the span is emitted
verbatim, exactly as the regex leaves an unmatched `[` alone (no `]` occurs
in the buffer, so no match can start inside it). -/
def stripBracketsAux : List Char → Option (List Char) → List Char
  | [], none => []
  | [], some buf => '[' :: buf.reverse
  | c :: cs, none =>
    if c = '[' then stripBracketsAux cs (some [])
    else c :: stripBracketsAux cs none
  | c :: cs, some buf =>
    if c = ']' then stripBracketsAux cs none
    else stripBracketsAux cs (some (c :: buf))

def stripBrackets (cs : List Char) : List Char := stripBracketsAux cs none

/-- Python `\w` (word character), ASCII model. -/
def isWordChar (c : Char) : Bool := c.isAlphanum || c = '_'

/-- Scan for the regex `\b[NSWE]\b`: an upper-case compass letter that is a
whole word.  `prevIsWord` says whether the previous character was a word
character. -/
def hasLoneCompassAux (prevIsWord : Bool) : List Char → Bool
  | [] => false
  | c :: rest =>
    if (c = 'N' ∨ c = 'S' ∨ c = 'W' ∨ c = 'E') ∧ prevIsWord = false ∧
        (match rest.head? with | some d => isWordChar d | none => false) = false then
      true
    else hasLoneCompassAux (isWordChar c) rest

def hasLoneCompass (s : String) : Bool := hasLoneCompassAux false s.toList

/-- The comma segments of a location cell that survive filtering
(lines 173-183): cleaned, non-sentinel, no digit, no lone compass letter. -/
def filteredParts (locationRaw : String) : List String :=
  let cleaned := String.mk (stripBrackets locationRaw.toList)
  let parts := (splitOnChar ',' cleaned.toList).map (fun p => clean_text (String.mk p))
  parts.filter (fun p =>
    p ≠ "N/A" ∧ p.toList.any Char.isDigit = false ∧ hasLoneCompass p = false)

/-- The segment-to-city/country step of `extract_city_country_from_wikipedia`
(lines 173-192), applied to the raw location cell text. -/
def parseLocation (locationRaw : String) : String × String :=
  match filteredParts locationRaw with
  | [] => ("N/A", "N/A")
  | [x] => (smart_title_case x, "N/A")
  | x :: xs => (smart_title_case x, smart_title_case (xs.getLast?.getD x))

/-- The location-row scan of lines 160-168: first row having both `th` and
`td` whose cleaned lower-cased label is `location` or `address`. -/
def findLocationRaw : List WikiRow → String
  | [] => "N/A"
  | r :: rest =>
    match r.thText, r.tdText with
    | some h, some c =>
      let label := lowerStr (clean_text h)
      if label = "location" ∨ label = "address" then clean_text c
      else findLocationRaw rest
    | _, _ => findLocationRaw rest

/-- Embeds `extract_city_country_from_wikipedia` (line 154). -/
def extract_city_country_from_wikipedia (infobox : Option (List WikiRow)) : String × String :=
  match infobox with
  | none => ("N/A", "N/A")
  | some rows =>
    let locationRaw := findLocationRaw rows
    if locationRaw = "N/A" then ("N/A", "N/A") else parseLocation locationRaw

/-- The website-row scan of lines 207-225: first row having both `th` and
`td` with label `website`; a protocol-relative or site-relative link is made
absolute, a row without a link falls back to the cell text. -/
def findWebsiteRows : List WikiRow → String
  | [] => "N/A"
  | r :: rest =>
    match r.thText, r.tdText with
    | some h, some c =>
      if lowerStr (clean_text h) = "website" then
        match r.tdLinkHref with
        | some href0 =>
          let href := clean_text href0
          if "//".toList.isPrefixOf href.toList then "https:" ++ href
          else if "/".toList.isPrefixOf href.toList then "https://en.wikipedia.org" ++ href
          else href
        | none => clean_text c
      else findWebsiteRows rest
    | _, _ => findWebsiteRows rest

/-- The four fields returned by `extract_website_from_wikipedia`. -/
structure WikiFields where
  name : String
  city : String
  country : String
  website : String
deriving DecidableEq

/-- Embeds `extract_website_from_wikipedia` (line 195) after the fetch: a
failed fetch (`none`) yields all sentinels. -/
def extract_website_from_wikipedia (page : Option WikiPage) : WikiFields :=
  match page with
  | none => ⟨"N/A", "N/A", "N/A", "N/A"⟩
  | some pg =>
    let wikiName := clean_text_opt pg.firstHeading
    let cc := extract_city_country_from_wikipedia pg.infobox
    let website :=
      match pg.infobox with
      | none => "N/A"
      | some rows => findWebsiteRows rows
    ⟨wikiName, cc.1, cc.2, website⟩

/-! ### Orchestrator pipeline (main, lines 483-575) -/

def TARGET_COUNTRY : String := "India"

def MIN_COURSES_PER_UNIVERSITY : Nat := 5

/-- Python `f"{n:0wd}"`: decimal, zero-padded on the left to width `w`. -/
def padNum (w n : Nat) : String :=
  let s := toString n
  String.mk (List.replicate (w - s.length) '0') ++ s

/-- The university identifier `f"U{idx:03d}"` (line 492). -/
def uniIdStr (idx : Nat) : String := "U" ++ padNum 3 idx

/-- The course identifier `f"C{i + 1:04d}"` (lines 462 and 573). -/
def courseIdStr (n : Nat) : String := "C" ++ padNum 4 n

/-- The Source A partial record: the three fields produced by
`extract_university_meta_from_topuniversities`. -/
structure SourceFields where
  name : String
  city : String
  country : String
deriving DecidableEq

/-- One reconciled university before normalization. -/
structure ReconRecord where
  name : String
  city : String
  country : String
  website : String
deriving DecidableEq

/-- The field-precedence merge of lines 505-507: primary (Source A) value
unless it is the sentinel, else secondary (Source B) value. -/
def mergeField (primary secondary : String) : String :=
  if primary ≠ "N/A" then primary else secondary

/-- The reconciliation step of `main` (lines 505-507 and 519): name, city and
country by `mergeField`; the website comes from the secondary source only. -/
def reconcile (primary : SourceFields) (secondary : WikiFields) : ReconRecord :=
  { name := mergeField primary.name secondary.name
    city := mergeField primary.city secondary.city
    country := mergeField primary.country secondary.country
    website := secondary.website }

/-- One stored university record (the dict built at line 514). -/
structure URec where
  university_id : String
  university_name : String
  country : String
  city : String
  website : String
deriving DecidableEq

/-- The global course dedup key (lines 541-545): lower-cased id, name, level. -/
def CourseKey := String × String × String
deriving DecidableEq

/-- One candidate program link together with the fetched course page
(`none` models a failed fetch, which `scrape_course` turns into `None`
and the loop skips). -/
structure CourseAttempt where
  url : String
  page : Option CoursePage
deriving DecidableEq

/-- The per-target input data of one run: whether the university page was
fetched, the three Source A fields extracted from it, the fetched Wikipedia
page, and the discovered program links with their fetched pages. -/
structure TargetData where
  fetched : Bool
  topuni : SourceFields
  wikiPage : Option WikiPage
  courseAttempts : List CourseAttempt
deriving DecidableEq

/-- The per-university course loop (lines 527-551): process candidates in
order, stop at the configured minimum, skip failed fetches and global
duplicates, thread the global dedup key set. -/
def collectCourses (uid : String) : List CourseAttempt → List CourseKey → Nat →
    List CourseRec × List CourseKey
  | [], g, _ => ([], g)
  | a :: rest, g, collected =>
    if MIN_COURSES_PER_UNIVERSITY ≤ collected then ([], g)
    else
      match a.page with
      | none => collectCourses uid rest g collected
      | some pg =>
        let c := scrape_course pg a.url uid
        let key : CourseKey :=
          (lowerStr c.university_id, lowerStr c.course_name, lowerStr c.level)
        if g.contains key then collectCourses uid rest g collected
        else
          let r := collectCourses uid rest (key :: g) (collected + 1)
          (c :: r.1, r.2)

/-- One iteration of the target loop (lines 491-557): returns the retained
university (if any), its collected courses, and the updated dedup key set. -/
def processTarget (idx : Nat) (t : TargetData) (g : List CourseKey) :
    Option URec × List CourseRec × List CourseKey :=
  if t.fetched = false then (none, [], g)
  else
    let uid := uniIdStr idx
    let wiki := extract_website_from_wikipedia t.wikiPage
    let merged := reconcile t.topuni wiki
    let normalizedCountry := smart_title_case merged.country
    if normalizedCountry ≠ TARGET_COUNTRY then (none, [], g)
    else
      let urec : URec :=
        { university_id := uid
          university_name := clean_text merged.name
          country := normalizedCountry
          city := smart_title_case merged.city
          website := clean_text merged.website }
      let r := collectCourses uid t.courseAttempts g 0
      (some urec, r.1, r.2)

/-- The whole target loop, enumerating targets from index 1 and threading the
global dedup key set; returns the running `universities` and `courses` lists. -/
def mainLoop : List TargetData → Nat → List CourseKey → List URec × List CourseRec
  | [], _, _ => ([], [])
  | t :: rest, idx, g =>
    let r := processTarget idx t g
    let tail := mainLoop rest (idx + 1) r.2.2
    (r.1.toList ++ tail.1, r.2.1 ++ tail.2)

/-- Keep the first occurrence of each key (pandas `drop_duplicates` with
`keep="first"`); `seen` holds the keys already emitted. -/
def dedupByKeys {α β : Type} [DecidableEq β] (key : α → β) : List α → List β → List α
  | [], _ => []
  | x :: xs, seen =>
    if seen.contains (key x) then dedupByKeys key xs seen
    else x :: dedupByKeys key xs (key x :: seen)

/-- The per-row column transforms of `clean_universities` (lines 440-445). -/
def cleanUniversityRow (u : URec) : URec :=
  { university_id := clean_text u.university_id
    university_name := clean_text u.university_name
    country := smart_title_case (clean_text u.country)
    city := smart_title_case (clean_text u.city)
    website :=
      let w := clean_text u.website
      if "http".toList.isPrefixOf w.toList then w else "N/A" }

/-- Embeds `clean_universities` (line 435): column cleaning then dedup on
(name, country, city), first occurrence kept. -/
def clean_universities (us : List URec) : List URec :=
  dedupByKeys (fun u => (u.university_name, u.country, u.city)) (us.map cleanUniversityRow) []

/-- One published course row (course record plus assigned `course_id`). -/
structure CRow where
  course_id : String
  university_id : String
  course_name : String
  level : String
  discipline : String
  duration : String
  fees : String
  eligibility : String
deriving DecidableEq

/-- The per-row column transforms of `clean_courses` (lines 456-459). -/
def cleanCourseRow (c : CourseRec) : CourseRec :=
  { university_id := clean_text c.university_id
    course_name := clean_text c.course_name
    level := clean_text c.level
    discipline := smart_title_case (clean_text c.discipline)
    duration := clean_text c.duration
    fees := clean_text c.fees
    eligibility := clean_text c.eligibility }

/-- The positional insertion of `course_id` values `C{n:04d}, C{n+1:04d}, ...`
(line 462). -/
def assignIds : Nat → List CourseRec → List CRow
  | _, [] => []
  | n, c :: cs =>
    { course_id := courseIdStr n
      university_id := c.university_id
      course_name := c.course_name
      level := c.level
      discipline := c.discipline
      duration := c.duration
      fees := c.fees
      eligibility := c.eligibility } :: assignIds (n + 1) cs

/-- Embeds `clean_courses` (line 451): column cleaning, dedup on
(university_id, course_name, level) keeping the first, then provisional
sequential course identifiers starting at `C0001`. -/
def clean_courses (cs : List CourseRec) : List CRow :=
  assignIds 1 (dedupByKeys (fun c => (c.university_id, c.course_name, c.level)) (cs.map cleanCourseRow) [])

/-- The final re-assignment of `course_id` after the referential filter
(line 573). -/
def reassignIds : Nat → List CRow → List CRow
  | _, [] => []
  | n, c :: cs => { c with course_id := courseIdStr n } :: reassignIds (n + 1) cs

/-- The tail of `main` (lines 559-575): clean both tables, end without output
when either is empty, filter courses to retained university identifiers,
re-assign course identifiers, and export.  `none` models "no Excel file was
created"; `some (universities, courses)` models the two written sheets. -/
def mainResult (targets : List TargetData) : Option (List URec × List CRow) :=
  let st := mainLoop targets 1 []
  let udf := clean_universities st.1
  let cdf := clean_courses st.2
  if udf.isEmpty then none
  else if cdf.isEmpty then none
  else
    let valid := udf.map (fun u => u.university_id)
    let filtered := cdf.filter (fun c => valid.contains c.university_id)
    some (udf, reassignIds 1 filtered)

/-! ### Lemmas: `tokens` and `clean_text` -/

theorem tokensAux_append_nonWs (t : List Char) :
    ∀ (cs acc : List Char), (∀ c ∈ t, isWs c = false) →
      tokensAux (t ++ cs) acc = tokensAux cs (t.reverse ++ acc) := by
  induction t with
  | nil => intro cs acc _; simp
  | cons c t ih =>
    intro cs acc h
    have hc : isWs c = false := h c (by simp)
    simp only [List.cons_append, tokensAux, hc, Bool.false_eq_true, if_false]
    refine (ih cs (c :: acc) (fun d hd => h d (by simp [hd]))).trans ?_
    simp [List.append_assoc]

theorem tokensAux_ok (cs : List Char) :
    ∀ (acc : List Char), (∀ c ∈ acc, isWs c = false) →
      ∀ t ∈ tokensAux cs acc, t ≠ [] ∧ ∀ c ∈ t, isWs c = false := by
  induction cs with
  | nil =>
    intro acc hacc t ht
    simp only [tokensAux] at ht
    cases hk : acc.isEmpty with
    | true => simp [hk] at ht
    | false =>
      rw [hk] at ht
      simp only [Bool.false_eq_true, if_false, List.mem_singleton] at ht
      subst ht
      refine ⟨?_, ?_⟩
      · simp only [ne_eq, List.reverse_eq_nil_iff]
        intro h0
        rw [h0] at hk
        simp at hk
      · intro c hc
        exact hacc c (List.mem_reverse.mp hc)
  | cons c cs ih =>
    intro acc hacc t ht
    simp only [tokensAux] at ht
    cases hws : isWs c with
    | false =>
      rw [hws] at ht
      simp only [Bool.false_eq_true, if_false] at ht
      refine ih (c :: acc) ?_ t ht
      intro d hd
      rcases List.mem_cons.mp hd with h1 | h1
      · rw [h1]; exact hws
      · exact hacc d h1
    | true =>
      rw [hws] at ht
      simp only [if_true] at ht
      cases hk : acc.isEmpty with
      | true =>
        rw [hk] at ht
        simp only [if_true] at ht
        exact ih [] (by simp) t ht
      | false =>
        rw [hk] at ht
        simp only [Bool.false_eq_true, if_false, List.mem_cons] at ht
        rcases ht with h1 | h1
        · subst h1
          refine ⟨?_, ?_⟩
          · simp only [ne_eq, List.reverse_eq_nil_iff]
            intro h0
            rw [h0] at hk
            simp at hk
          · intro d hd
            exact hacc d (List.mem_reverse.mp hd)
        · exact ih [] (by simp) t h1

theorem tokens_ok (cs : List Char) :
    ∀ t ∈ tokens cs, t ≠ [] ∧ ∀ c ∈ t, isWs c = false :=
  tokensAux_ok cs [] (by simp)

theorem tokens_intercalate (ts : List (List Char))
    (h : ∀ t ∈ ts, t ≠ [] ∧ ∀ c ∈ t, isWs c = false) :
    tokens (List.intercalate [' '] ts) = ts := by
  induction ts with
  | nil => simp [tokens, tokensAux, List.intercalate]
  | cons t ts ih =>
    have ht := h t (by simp)
    cases ts with
    | nil =>
      have h1 : List.intercalate [' '] [t] = t := by
        simp [List.intercalate]
      rw [h1]
      have h2 : tokens t = tokensAux (t ++ []) [] := by
        simp [tokens]
      rw [h2, tokensAux_append_nonWs t [] [] ht.2]
      simp only [tokensAux, List.append_nil]
      have h3 : (t.reverse).isEmpty = false := by
        cases hr : t.reverse.isEmpty
        · rfl
        · exfalso
          apply ht.1
          have := List.isEmpty_iff.mp hr
          simpa using congrArg List.reverse this
      rw [h3]
      simp
    | cons t2 ts2 =>
      have h1 : List.intercalate [' '] (t :: t2 :: ts2) =
          t ++ (' ' :: List.intercalate [' '] (t2 :: ts2)) := by
        simp [List.intercalate, List.intersperse_cons_cons]
      rw [h1]
      have h2 : tokens (t ++ (' ' :: List.intercalate [' '] (t2 :: ts2))) =
          tokensAux (' ' :: List.intercalate [' '] (t2 :: ts2)) t.reverse := by
        have := tokensAux_append_nonWs t (' ' :: List.intercalate [' '] (t2 :: ts2)) [] ht.2
        simpa [tokens] using this
      rw [h2]
      simp only [tokensAux]
      have hsp : isWs ' ' = true := by decide
      rw [hsp]
      simp only [if_true]
      have h3 : (t.reverse).isEmpty = false := by
        cases hr : t.reverse.isEmpty
        · rfl
        · exfalso
          apply ht.1
          have := List.isEmpty_iff.mp hr
          simpa using congrArg List.reverse this
      rw [h3]
      simp only [Bool.false_eq_true, if_false, List.reverse_reverse]
      have h4 : tokensAux (List.intercalate [' '] (t2 :: ts2)) [] = t2 :: ts2 :=
        ih (fun u hu => h u (by simp [hu]))
      rw [show tokensAux (List.intercalate [' '] (t2 :: ts2)) [] =
        tokens (List.intercalate [' '] (t2 :: ts2)) from rfl] at h4
      rw [show tokensAux (List.intercalate [' '] (t2 :: ts2)) [] =
        tokens (List.intercalate [' '] (t2 :: ts2)) from rfl]
      rw [h4]

theorem clean_text_of_isEmpty (s : String) (h : (tokens s.toList).isEmpty = true) :
    clean_text s = "N/A" := by
  simp only [clean_text]
  rw [if_pos h]

theorem clean_text_of_not_isEmpty (s : String) (h : ¬(tokens s.toList).isEmpty = true) :
    clean_text s = String.mk (List.intercalate [' '] (tokens s.toList)) := by
  simp only [clean_text]
  rw [if_neg h]

theorem clean_text_idem (s : String) : clean_text (clean_text s) = clean_text s := by
  by_cases h : (tokens s.toList).isEmpty = true
  · rw [clean_text_of_isEmpty s h]
    decide
  · rw [clean_text_of_not_isEmpty s h]
    have h2 : tokens (String.mk (List.intercalate [' '] (tokens s.toList))).toList =
        tokens s.toList := tokens_intercalate _ (tokens_ok s.toList)
    simp only [clean_text]
    rw [h2, if_neg h]

theorem clean_text_ne_empty (s : String) : clean_text s ≠ "" := by
  by_cases h : (tokens s.toList).isEmpty = true
  · rw [clean_text_of_isEmpty s h]; decide
  · rw [clean_text_of_not_isEmpty s h]
    intro hEq
    have h2 : List.intercalate [' '] (tokens s.toList) = [] := by
      have := congrArg String.toList hEq
      simpa using this
    rcases hts : tokens s.toList with _ | ⟨t, rest⟩
    · rw [hts] at h
      simp at h
    · have htn : t ≠ [] := ((tokens_ok s.toList) t (by rw [hts]; simp)).1
      rw [hts] at h2
      cases rest with
      | nil =>
        simp [List.intercalate] at h2
        exact htn h2
      | cons t2 ts2 =>
        rw [show List.intercalate [' '] (t :: t2 :: ts2) =
            t ++ (' ' :: List.intercalate [' '] (t2 :: ts2)) by
          simp [List.intercalate, List.intersperse_cons_cons]] at h2
        rcases List.append_eq_nil.mp h2 with ⟨_, h4⟩
        exact List.cons_ne_nil _ _ h4

theorem tokens_allWs (cs : List Char) : cs.all isWs = true → tokens cs = [] := by
  induction cs with
  | nil => intro _; rfl
  | cons c cs ih =>
    intro h
    simp only [List.all_cons, Bool.and_eq_true] at h
    simp only [tokens, tokensAux, h.1, if_true, List.isEmpty_nil]
    exact ih h.2

theorem lowerStr_eq_empty {s : String} (h : lowerStr s = "") : s = "" := by
  have h1 : s.toList.map Char.toLower = [] := by
    have h2 := congrArg String.toList h
    simpa [lowerStr] using h2
  have h3 : s.toList = [] := List.map_eq_nil_iff.mp h1
  have h4 : String.mk s.toList = String.mk [] := by rw [h3]
  exact h4

/-! ### Claim theorems -/

/-- Claim C9: `clean_text` is a total function, idempotent on every input;
null, empty, and whitespace-only inputs map to the sentinel `"N/A"`, and no
input maps to the empty string (the output is always a usable value). -/
theorem clean_total_idempotent :
    (∀ x : Option String, clean_text_opt (some (clean_text_opt x)) = clean_text_opt x) ∧
    clean_text_opt none = "N/A" ∧
    clean_text "" = "N/A" ∧
    (∀ s : String, s.toList.all isWs = true → clean_text s = "N/A") ∧
    (∀ s : String, clean_text s ≠ "") := by
  refine ⟨?_, rfl, by decide, ?_, clean_text_ne_empty⟩
  · intro x
    cases x with
    | none => decide
    | some s => exact clean_text_idem s
  · intro s h
    apply clean_text_of_isEmpty
    rw [tokens_allWs s.toList h]
    rfl

/-- Witness for C9 at concrete inputs. -/
theorem clean_total_idempotent_witness :
    clean_text_opt (some (clean_text_opt (some "  a   b "))) = clean_text_opt (some "  a   b ") ∧
    clean_text "  " = "N/A" ∧
    clean_text " x" ≠ "" :=
  ⟨clean_total_idempotent.1 (some "  a   b "),
   clean_total_idempotent.2.2.2.1 "  " (by decide),
   clean_total_idempotent.2.2.2.2 " x"⟩

/-- Claim C1 (counterexample): for a badge titled `"Duration"` whose displayed
value is `"Duration: 2 Years"`, the stored value under key `"duration"` is the
full `"Duration: 2 Years"`, not `"2 Years"`: the title is a prefix, not a
suffix, of the value, so the suffix strip does not fire and nothing else
removes the leading title. -/
theorem badge_duration_prefix_cex :
    dictGet (extract_badges [⟨some "Duration", some "Duration: 2 Years"⟩]) "duration" =
      some "Duration: 2 Years" ∧
    dictGet (extract_badges [⟨some "Duration", some "Duration: 2 Years"⟩]) "duration" ≠
      some "2 Years" := by
  exact ⟨by decide, by decide⟩

/-- Claim C1 (amended): the title strip triggers only when the cleaned value
ends case-insensitively with the cleaned title; when it does not (in
particular when the title is merely a prefix) the stored value is the cleaned
value unchanged, so the Duration badge stores the full `"Duration: 2 Years"`
under the key `"duration"`. -/
theorem badge_strip_only_on_suffix :
    (∀ t v : String,
      (lowerStr (clean_text t)).toList.isSuffixOf (lowerStr (clean_text v)).toList = false →
      badgeStoredValue t v = clean_text v) ∧
    dictGet (extract_badges [⟨some "Duration", some "Duration: 2 Years"⟩]) "duration" =
      some (clean_text "Duration: 2 Years") := by
  constructor
  · intro t v h
    simp only [badgeStoredValue]
    rw [if_neg]
    intro hc
    rw [h] at hc
    exact Bool.noConfusion hc.2.2
  · decide

/-- Witness for the amended C1 at the Duration badge. -/
theorem badge_strip_only_on_suffix_witness :
    badgeStoredValue "Duration" "Duration: 2 Years" = clean_text "Duration: 2 Years" :=
  badge_strip_only_on_suffix.1 "Duration" "Duration: 2 Years" (by decide)

/-- Claim C8: the two extractors differ in duplicate-key collision policy:
with two badge elements sharing a lower-cased title the badge map holds the
value of the last occurrence (dict assignment overwrites), while with two
highlight blocks sharing a key (the first carrying a valid value) the
highlight map holds the value of the first occurrence (guarded insertion). -/
theorem badge_overwrites_highlight_keeps_first :
    (∀ t1 v1 t2 v2 : String,
      lowerStr (clean_text t1) = lowerStr (clean_text t2) →
      dictGet (extract_badges [⟨some t1, some v1⟩, ⟨some t2, some v2⟩])
          (lowerStr (clean_text t2)) = some (badgeStoredValue t2 v2)) ∧
    (∀ k1 w1 k2 w2 : String,
      lowerStr (clean_text k1) = lowerStr (clean_text k2) →
      clean_text w1 ≠ "N/A" →
      dictGet (extract_highlights [⟨some k1, some w1⟩, ⟨some k2, some w2⟩])
          (lowerStr (clean_text k1)) = some (clean_text w1)) := by
  constructor
  · intro t1 v1 t2 v2 h
    simp only [extract_badges, List.foldl, h, dictSet, dictGet]
    simp
  · intro k1 w1 k2 w2 h hw
    have hk : lowerStr (clean_text k1) ≠ "" := by
      intro h0
      exact clean_text_ne_empty k1 (lowerStr_eq_empty h0)
    simp [extract_highlights, List.foldl, ← h, hk, hw, dictGet]

/-- Witness for C8: two badges with titles differing only in case, and two
highlights with keys differing only in case. -/
theorem badge_overwrites_highlight_keeps_first_witness :
    dictGet (extract_badges [⟨some "Size", some "Large"⟩, ⟨some "SIZE", some "Small"⟩])
        (lowerStr (clean_text "SIZE")) = some (badgeStoredValue "SIZE" "Small") ∧
    dictGet (extract_highlights [⟨some "Mode", some "Fast"⟩, ⟨some "MODE", some "Slow"⟩])
        (lowerStr (clean_text "Mode")) = some (clean_text "Fast") :=
  ⟨badge_overwrites_highlight_keeps_first.1 "Size" "Large" "SIZE" "Small" (by decide),
   badge_overwrites_highlight_keeps_first.2 "Mode" "Fast" "MODE" "Slow" (by decide) (by decide)⟩

/-- Claim C10: when the highlights map has no `"main subject"` entry and the
badge map binds `"main subject area"` to the sentinel string `"N/A"`, the
extracted discipline is the sentinel: `"N/A"` is a non-empty, hence truthy,
Python string, so the or-chain stops at the badge value and the course-name
heuristic and URL-segment fallback are skipped. -/
theorem discipline_truthy_sentinel_skip (pg : CoursePage) (url uid : String)
    (h1 : dictGet (extract_highlights pg.highlights) "main subject" = none)
    (h2 : dictGet (extract_badges pg.badges) "main subject area" = some "N/A") :
    (scrape_course pg url uid).discipline = "N/A" := by
  have h3 : pyOrOpt (dictGet (extract_highlights pg.highlights) "main subject")
      (dictGet (extract_badges pg.badges) "main subject area") = some "N/A" := by
    rw [h1, h2]
    rfl
  simp only [scrape_course, h3, pyOrStr]
  rw [if_neg (by decide : ¬("N/A" : String) = "")]
  decide

/-- Witness for C10: a page whose only badge has title and value both equal
to `"Main Subject Area"`, so the suffix strip leaves the empty string and the
badge map binds `"main subject area"` to `"N/A"`. -/
theorem discipline_truthy_sentinel_skip_witness :
    (scrape_course ⟨some "Algebra", [⟨some "Main Subject Area", some "Main Subject Area"⟩], [], [], []⟩
        "https://www.topuniversities.com/universities/alpha-university/masters/algebra" "U001").discipline = "N/A" :=
  discipline_truthy_sentinel_skip _ _ _ (by decide) (by decide)

/-- Claim C6: the Source B location parser turns the cell
`"Hyderabad, Telangana, India[1]"` into city Hyderabad and country India;
in general, of the comma segments surviving the digit/compass filter, the
first is the city and the last the country (middle segments are discarded by
position), and a lone survivor becomes the city with country unresolved. -/
theorem wiki_location_parsing :
    extract_city_country_from_wikipedia
        (some [⟨some "Location", some "Hyderabad, Telangana, India[1]", none⟩]) =
      ("Hyderabad", "India") ∧
    (∀ s x, filteredParts s = [x] → parseLocation s = (smart_title_case x, "N/A")) ∧
    (∀ s a mid c, filteredParts s = a :: (mid ++ [c]) →
      parseLocation s = (smart_title_case a, smart_title_case c)) := by
  refine ⟨by decide, ?_, ?_⟩
  · intro s x h
    simp only [parseLocation, h]
  · intro s a mid c h
    simp only [parseLocation, h]
    cases mid with
    | nil => simp
    | cons m ms =>
      have h2 : (m :: (ms ++ [c])).getLast? = some c := by
        rw [← List.cons_append]
        exact List.getLast?_concat _
      simp [h2]

/-- Witness for C6: a lone surviving segment, and a three-segment cell. -/
theorem wiki_location_parsing_witness :
    parseLocation "Hyderabad" = (smart_title_case "Hyderabad", "N/A") ∧
    parseLocation "Hyderabad, Telangana, India" =
      (smart_title_case "Hyderabad", smart_title_case "India") :=
  ⟨wiki_location_parsing.2.1 "Hyderabad" "Hyderabad" (by decide),
   wiki_location_parsing.2.2 "Hyderabad, Telangana, India" "Hyderabad" ["Telangana"] "India"
     (by decide)⟩

/-- Claim C7: `normalize_level` checks the level-text substrings in the
documented priority order with first match winning, falls back to the fixed
URL-segment table when no substring matches, and the masters program-link URL
with no extractable level text resolves to `"Master"`. -/
theorem level_priority_url_fallback :
    (∀ raw url : String,
      ((strContains (lowerStr (clean_text raw)) "undergraduate" ||
          strContains (lowerStr (clean_text raw)) "bachelor") = true →
        normalize_level raw url = "Bachelor") ∧
      ((strContains (lowerStr (clean_text raw)) "undergraduate" ||
          strContains (lowerStr (clean_text raw)) "bachelor") = false →
       (strContains (lowerStr (clean_text raw)) "postgraduate" ||
          strContains (lowerStr (clean_text raw)) "master") = true →
        normalize_level raw url = "Master") ∧
      ((strContains (lowerStr (clean_text raw)) "undergraduate" ||
          strContains (lowerStr (clean_text raw)) "bachelor") = false →
       (strContains (lowerStr (clean_text raw)) "postgraduate" ||
          strContains (lowerStr (clean_text raw)) "master") = false →
       (strContains (lowerStr (clean_text raw)) "phd" ||
          strContains (lowerStr (clean_text raw)) "doctoral") = true →
        normalize_level raw url = "PhD") ∧
      ((strContains (lowerStr (clean_text raw)) "undergraduate" ||
          strContains (lowerStr (clean_text raw)) "bachelor") = false →
       (strContains (lowerStr (clean_text raw)) "postgraduate" ||
          strContains (lowerStr (clean_text raw)) "master") = false →
       (strContains (lowerStr (clean_text raw)) "phd" ||
          strContains (lowerStr (clean_text raw)) "doctoral") = false →
       strContains (lowerStr (clean_text raw)) "diploma" = true →
        normalize_level raw url = "Diploma") ∧
      ((strContains (lowerStr (clean_text raw)) "undergraduate" ||
          strContains (lowerStr (clean_text raw)) "bachelor") = false →
       (strContains (lowerStr (clean_text raw)) "postgraduate" ||
          strContains (lowerStr (clean_text raw)) "master") = false →
       (strContains (lowerStr (clean_text raw)) "phd" ||
          strContains (lowerStr (clean_text raw)) "doctoral") = false →
       strContains (lowerStr (clean_text raw)) "diploma" = false →
       strContains (lowerStr (clean_text raw)) "certificate" = true →
        normalize_level raw url = "Certificate") ∧
      ((strContains (lowerStr (clean_text raw)) "undergraduate" ||
          strContains (lowerStr (clean_text raw)) "bachelor") = false →
       (strContains (lowerStr (clean_text raw)) "postgraduate" ||
          strContains (lowerStr (clean_text raw)) "master") = false →
       (strContains (lowerStr (clean_text raw)) "phd" ||
          strContains (lowerStr (clean_text raw)) "doctoral") = false →
       strContains (lowerStr (clean_text raw)) "diploma" = false →
       strContains (lowerStr (clean_text raw)) "certificate" = false →
       strContains (lowerStr (clean_text raw)) "mba" = true →
        normalize_level raw url = "MBA") ∧
      ((strContains (lowerStr (clean_text raw)) "undergraduate" ||
          strContains (lowerStr (clean_text raw)) "bachelor") = false →
       (strContains (lowerStr (clean_text raw)) "postgraduate" ||
          strContains (lowerStr (clean_text raw)) "master") = false →
       (strContains (lowerStr (clean_text raw)) "phd" ||
          strContains (lowerStr (clean_text raw)) "doctoral") = false →
       strContains (lowerStr (clean_text raw)) "diploma" = false →
       strContains (lowerStr (clean_text raw)) "certificate" = false →
       strContains (lowerStr (clean_text raw)) "mba" = false →
        normalize_level raw url = levelFromSegment (url_level_segment url))) ∧
    normalize_level "N/A"
        "https://www.topuniversities.com/universities/x-uni/masters/engineering-x" =
      "Master" := by
  constructor
  · intro raw url
    refine ⟨?_, ?_, ?_, ?_, ?_, ?_, ?_⟩
    · intro h1
      simp only [normalize_level, h1]
      simp
    · intro h1 h2
      simp only [normalize_level, h1, h2]
      simp
    · intro h1 h2 h3
      simp only [normalize_level, h1, h2, h3]
      simp
    · intro h1 h2 h3 h4
      simp only [normalize_level, h1, h2, h3, h4]
      simp
    · intro h1 h2 h3 h4 h5
      simp only [normalize_level, h1, h2, h3, h4, h5]
      simp
    · intro h1 h2 h3 h4 h5 h6
      simp only [normalize_level, h1, h2, h3, h4, h5, h6]
      simp
    · intro h1 h2 h3 h4 h5 h6
      simp only [normalize_level, h1, h2, h3, h4, h5, h6]
      simp
  · decide

/-- Witness for C7: a text carrying both an undergraduate and a postgraduate
cue resolves by priority to Bachelor, and an empty signal falls back to the
URL-segment table. -/
theorem level_priority_url_fallback_witness :
    normalize_level "Undergraduate and Postgraduate options" "" = "Bachelor" ∧
    normalize_level "" "https://a.b/universities/u/phd/x" =
      levelFromSegment (url_level_segment "https://a.b/universities/u/phd/x") :=
  ⟨(level_priority_url_fallback.1 "Undergraduate and Postgraduate options" "").1 (by decide),
   (level_priority_url_fallback.1 "" "https://a.b/universities/u/phd/x").2.2.2.2.2.2
     (by decide) (by decide) (by decide) (by decide) (by decide) (by decide)⟩

/-- Claim C4: per-field precedence of the reconciler: name, city and country
each take the primary (Source A) value when it is not the sentinel and the
secondary (Source B) value otherwise (possibly the sentinel when both are),
and the website is taken from the secondary record only. -/
theorem reconcile_precedence (p : SourceFields) (s : WikiFields) :
    ((p.name ≠ "N/A" → (reconcile p s).name = p.name) ∧
      (p.name = "N/A" → (reconcile p s).name = s.name)) ∧
    ((p.city ≠ "N/A" → (reconcile p s).city = p.city) ∧
      (p.city = "N/A" → (reconcile p s).city = s.city)) ∧
    ((p.country ≠ "N/A" → (reconcile p s).country = p.country) ∧
      (p.country = "N/A" → (reconcile p s).country = s.country)) ∧
    (reconcile p s).website = s.website := by
  refine ⟨⟨?_, ?_⟩, ⟨?_, ?_⟩, ⟨?_, ?_⟩, rfl⟩ <;> intro h <;> simp [reconcile, mergeField, h]

/-- Witness for C4 at a concrete pair of partial records. -/
theorem reconcile_precedence_witness :
    (reconcile ⟨"Alpha", "N/A", "India"⟩ ⟨"Beta", "Delhi", "N/A", "http://x"⟩).name = "Alpha" ∧
    (reconcile ⟨"Alpha", "N/A", "India"⟩ ⟨"Beta", "Delhi", "N/A", "http://x"⟩).city = "Delhi" ∧
    (reconcile ⟨"Alpha", "N/A", "India"⟩ ⟨"Beta", "Delhi", "N/A", "http://x"⟩).website = "http://x" :=
  ⟨(reconcile_precedence ⟨"Alpha", "N/A", "India"⟩ ⟨"Beta", "Delhi", "N/A", "http://x"⟩).1.1
      (by decide),
   (reconcile_precedence ⟨"Alpha", "N/A", "India"⟩ ⟨"Beta", "Delhi", "N/A", "http://x"⟩).2.1.2
      (by decide),
   (reconcile_precedence ⟨"Alpha", "N/A", "India"⟩ ⟨"Beta", "Delhi", "N/A", "http://x"⟩).2.2.2⟩

/-! ### Lemmas: pipeline invariants -/

theorem dedupByKeys_subset {α β : Type} [DecidableEq β] (key : α → β) (l : List α) :
    ∀ (seen : List β) (x : α), x ∈ dedupByKeys key l seen → x ∈ l := by
  induction l with
  | nil => intro seen x h; simp [dedupByKeys] at h
  | cons a l ih =>
    intro seen x h
    simp only [dedupByKeys] at h
    by_cases hc : (seen.contains (key a)) = true
    · rw [if_pos hc] at h
      exact List.mem_cons_of_mem a (ih seen x h)
    · rw [if_neg hc] at h
      rcases List.mem_cons.mp h with h1 | h1
      · rw [h1]; exact List.mem_cons_self a l
      · exact List.mem_cons_of_mem a (ih _ x h1)

theorem processTarget_country (idx : Nat) (t : TargetData) (g : List CourseKey) (u : URec)
    (h : (processTarget idx t g).1 = some u) : u.country = TARGET_COUNTRY := by
  simp only [processTarget] at h
  split at h
  · simp at h
  · split at h
    · simp at h
    · rename_i hcond
      simp only [Prod.fst] at h
      have h2 := Option.some.inj h
      rw [← h2]
      exact not_ne_iff.mp hcond

theorem processTarget_skip (idx : Nat) (t : TargetData) (g : List CourseKey)
    (h : smart_title_case
        (reconcile t.topuni (extract_website_from_wikipedia t.wikiPage)).country ≠
      TARGET_COUNTRY) :
    processTarget idx t g = (none, [], g) := by
  simp only [processTarget]
  split
  · rfl
  · rfl

theorem mainLoop_countries (targets : List TargetData) :
    ∀ (idx : Nat) (g : List CourseKey) (u : URec),
      u ∈ (mainLoop targets idx g).1 → u.country = TARGET_COUNTRY := by
  induction targets with
  | nil => intro idx g u h; simp [mainLoop] at h
  | cons t rest ih =>
    intro idx g u h
    simp only [mainLoop] at h
    rcases List.mem_append.mp h with h1 | h1
    · rcases hp : (processTarget idx t g).1 with _ | v
      · rw [hp] at h1; simp at h1
      · rw [hp] at h1
        simp only [Option.toList_some, List.mem_singleton] at h1
        rw [h1]
        exact processTarget_country idx t g v hp
    · exact ih _ _ u h1

theorem clean_universities_countries (us : List URec)
    (h : ∀ u ∈ us, u.country = TARGET_COUNTRY) :
    ∀ u ∈ clean_universities us, u.country = TARGET_COUNTRY := by
  intro u hu
  have h1 := dedupByKeys_subset _ _ _ u hu
  rcases List.mem_map.mp h1 with ⟨v, hv, rfl⟩
  simp only [cleanUniversityRow]
  rw [h v hv]
  decide

/-- Claim C5: the country filter is a hard gate: every university row of the
final table has the configured target country, and a target whose merged,
re-normalized country differs from the target country contributes no
university record and no courses at all. -/
theorem country_filter (targets : List TargetData) :
    (∀ u ∈ clean_universities (mainLoop targets 1 []).1, u.country = TARGET_COUNTRY) ∧
    (∀ (idx : Nat) (g : List CourseKey) (t : TargetData),
      smart_title_case
          (reconcile t.topuni (extract_website_from_wikipedia t.wikiPage)).country ≠
        TARGET_COUNTRY →
      processTarget idx t g = (none, [], g)) := by
  constructor
  · exact clean_universities_countries _ (fun u hu => mainLoop_countries targets 1 [] u hu)
  · intro idx g t h
    exact processTarget_skip idx t g h

/-- Witness for C5: a retained Indian university row carries the target
country, and a German target is dropped with no courses. -/
theorem country_filter_witness :
    (⟨"U001", "Alpha Uni", "India", "Hyd", "N/A"⟩ : URec).country = TARGET_COUNTRY ∧
    processTarget 2 ⟨true, ⟨"Beta", "Town", "Germany"⟩, none, []⟩ [] = (none, [], []) :=
  ⟨(country_filter [⟨true, ⟨"Alpha Uni", "Hyd", "India"⟩, none, []⟩]).1
      ⟨"U001", "Alpha Uni", "India", "Hyd", "N/A"⟩ (by decide),
   (country_filter []).2 2 [] ⟨true, ⟨"Beta", "Town", "Germany"⟩, none, []⟩ (by decide)⟩

theorem reassignIds_mem (l : List CRow) :
    ∀ (n : Nat) (c : CRow), c ∈ reassignIds n l → ∃ d ∈ l, c.university_id = d.university_id := by
  induction l with
  | nil => intro n c h; simp [reassignIds] at h
  | cons a l ih =>
    intro n c h
    simp only [reassignIds, List.mem_cons] at h
    rcases h with h | h
    · exact ⟨a, by simp, by rw [h]⟩
    · rcases ih (n + 1) c h with ⟨d, hd, he⟩
      exact ⟨d, by simp [hd], he⟩

theorem reassignIds_ids (l : List CRow) :
    ∀ n : Nat, (reassignIds n l).map (fun c => c.course_id) =
      (List.range l.length).map (fun i => courseIdStr (n + i)) := by
  induction l with
  | nil => intro n; simp [reassignIds]
  | cons a l ih =>
    intro n
    simp only [reassignIds, List.map_cons, List.length_cons, List.range_succ_eq_map,
      List.map_map]
    rw [ih (n + 1)]
    congr 1
    refine List.map_congr_left ?_
    intro i _
    simp only [Function.comp_apply]
    congr 1
    omega

theorem reassignIds_length (l : List CRow) :
    ∀ n : Nat, (reassignIds n l).length = l.length := by
  induction l with
  | nil => intro n; rfl
  | cons a l ih =>
    intro n
    simp only [reassignIds, List.length_cons, ih (n + 1)]

/-- Claim C3: every published course row references a university present in
the published Universities table, and the published course identifiers are
exactly C0001, C0002, ... assigned contiguously from 1 in row order, having
been re-assigned after the referential-integrity filter. -/
theorem refint_contiguous_ids (targets : List TargetData) (r : List URec × List CRow)
    (h : mainResult targets = some r) :
    (∀ c ∈ r.2, ∃ u ∈ r.1, u.university_id = c.university_id) ∧
    r.2.map (fun c => c.course_id) =
      (List.range r.2.length).map (fun i => courseIdStr (i + 1)) := by
  simp only [mainResult] at h
  split at h
  · simp at h
  · split at h
    · simp at h
    · have hr := Option.some.inj h
      subst hr
      dsimp only
      constructor
      · intro c hc
        obtain ⟨d, hd, he⟩ := reassignIds_mem _ 1 c hc
        have hd2 := List.mem_filter.mp hd
        have hmem : d.university_id ∈
            (clean_universities (mainLoop targets 1 []).1).map (fun u => u.university_id) := by
          simpa using hd2.2
        obtain ⟨u, hu, hue⟩ := List.mem_map.mp hmem
        exact ⟨u, hu, by rw [hue, he]⟩
      · rw [reassignIds_ids, reassignIds_length]
        refine List.map_congr_left ?_
        intro i _
        congr 1
        omega

def c3targets : List TargetData :=
  [⟨true, ⟨"A Uni", "Hyd", "India"⟩, none,
    [⟨"https://www.topuniversities.com/universities/alpha-university/masters/algebra", some ⟨some "Algebra", [], [], [], []⟩⟩]⟩]

/-- Witness for C3 at a one-target, one-course run. -/
theorem refint_contiguous_ids_witness :
    (∀ c ∈ ([⟨"C0001", "U001", "Algebra", "Master", "Algebra", "N/A", "N/A", "N/A"⟩] : List CRow),
      ∃ u ∈ ([⟨"U001", "A Uni", "India", "Hyd", "N/A"⟩] : List URec),
        u.university_id = c.university_id) ∧
    ([⟨"C0001", "U001", "Algebra", "Master", "Algebra", "N/A", "N/A", "N/A"⟩] : List CRow).map
        (fun c => c.course_id) =
      (List.range
          ([⟨"C0001", "U001", "Algebra", "Master", "Algebra", "N/A", "N/A", "N/A"⟩] : List CRow).length).map
        (fun i => courseIdStr (i + 1)) :=
  refint_contiguous_ids c3targets
    ([⟨"U001", "A Uni", "India", "Hyd", "N/A"⟩],
     [⟨"C0001", "U001", "Algebra", "Master", "Algebra", "N/A", "N/A", "N/A"⟩]) (by decide)

def c2targets : List TargetData :=
  [⟨true, ⟨"Alpha University", "Hyderabad", "India"⟩, none, []⟩,
   ⟨true, ⟨"Alpha University", "Hyderabad", "India"⟩, none,
     [⟨"https://www.topuniversities.com/universities/alpha-university/masters/algebra", some ⟨some "Algebra", [], [], [], []⟩⟩]⟩,
   ⟨false, ⟨"", "", ""⟩, none, []⟩, ⟨false, ⟨"", "", ""⟩, none, []⟩,
   ⟨false, ⟨"", "", ""⟩, none, []⟩, ⟨false, ⟨"", "", ""⟩, none, []⟩]

/-- Claim C2 (counterexample): a six-target run in which the first target
retains a university with no courses and the second retains a duplicate
university (same name, country, city) whose single course survives cleaning:
both emptiness checks pass, the university dedup removes the second
university, the referential filter then removes its course, and the run still
writes the artifact — with a non-empty Universities sheet and an *empty*
Courses sheet, contradicting "for every run that does write output, both
tables are non-empty". -/
theorem empty_courses_exported_cex :
    (mainResult c2targets).map (fun r => (r.1.length, r.2.length)) = some (1, 0) := by
  decide

/-- Claim C2 (amended): the two emptiness checks run before the
referential-integrity filter: a run retaining no universities or no cleaned
courses produces no output, and every run that writes output has a non-empty
Universities sheet and started from a non-empty cleaned Courses table — but
the published Courses sheet itself may be empty when the filter removes every
course. -/
theorem empty_result_checks (targets : List TargetData) :
    ((clean_universities (mainLoop targets 1 []).1 = [] ∨
      clean_courses (mainLoop targets 1 []).2 = []) → mainResult targets = none) ∧
    (∀ r, mainResult targets = some r →
      r.1 ≠ [] ∧ clean_courses (mainLoop targets 1 []).2 ≠ []) := by
  constructor
  · intro h
    simp only [mainResult]
    rcases h with h | h
    · rw [if_pos (List.isEmpty_iff.mpr h)]
    · by_cases h2 : (clean_universities (mainLoop targets 1 []).1).isEmpty = true
      · rw [if_pos h2]
      · rw [if_neg h2, if_pos (List.isEmpty_iff.mpr h)]
  · intro r h
    simp only [mainResult] at h
    split at h
    · simp at h
    · split at h
      · simp at h
      · rename_i h1 h2
        have hr := Option.some.inj h
        subst hr
        dsimp only
        refine ⟨?_, ?_⟩
        · intro h0
          exact h1 (List.isEmpty_iff.mpr h0)
        · intro h0
          exact h2 (List.isEmpty_iff.mpr h0)

/-- Witness for the amended C2: the empty run writes nothing. -/
theorem empty_result_checks_witness : mainResult ([] : List TargetData) = none :=
  (empty_result_checks []).1 (Or.inl (by decide))
